import Mathlib

/-!
Verification of the `jetsam-tooling` command-line utility against its
specification.  The TypeScript sources are shallowly embedded: every
external effect (child-process invocation, console prompt, file read) is
represented by an explicit input and the sequence of spawned commands is
returned as a trace.  Exit statuses are modelled as `Int` (the process
runners map a failed launch to `-1`).  Standard-error diagnostics are
collected in a list; standard-output narration is not modelled.
-/

namespace Jetsam

/-! ## Interactive prompt (`SubCommandHelpers.getInput` / `confirm`)

`getInput` reads console lines until it is satisfied.  The console is
modelled as the list of lines the user will type, in order; the function
returns `none` when that list is exhausted before an answer is accepted
(in the real program it would still be blocked waiting for input).
`choices = none` models the parameter being omitted (`undefined`), which
the code distinguishes from an empty list. -/

def getInput (choices : Option (List String)) (defaultChoice : Option String) :
    List String → Option String
  | [] => none
  | answer :: rest =>
    -- `if (defaultChoice !== undefined && answer === '')`
    if defaultChoice.isSome && answer == "" then defaultChoice
    else
      match choices with
      | some cs =>
        -- `else if (choices !== undefined && choices.length > 0)`
        if cs.isEmpty then some answer
        else if cs.contains answer then some answer
        else getInput choices defaultChoice rest
      | none => some answer

/-- `confirm` asks with the fixed choice list `['yes', 'no']`, translating an
optional boolean default to the corresponding word, and returns whether the
accepted answer equals `'yes'`. -/
def confirm (defaultChoice : Option Bool) (inputs : List String) : Option Bool :=
  (getInput (some ["yes", "no"])
      (match defaultChoice with
        | some true => some "yes"
        | some false => some "no"
        | none => none)
      inputs).map (fun answer => answer == "yes")

/-! ## Output-capturing process runners

`getOutputFromCmdNoChomp` resolves with the captured standard output only
when the child's close code is exactly 0, and with `undefined` (here
`none`) otherwise.  `getOutputFromCmd` additionally strips one trailing
newline (`contents.replace(/\n$/, '')`).  The inputs are the close code
and the text the child wrote to its standard output. -/

def getOutputFromCmdNoChomp (closeCode : Int) (captured : String) : Option String :=
  if closeCode = 0 then some captured else none

/-- `s.replace(/\n$/, '')`: remove one final newline when present. -/
def chomp (s : String) : String :=
  if s.data.getLast? = some '\n' then String.mk s.data.dropLast else s

def getOutputFromCmd (closeCode : Int) (captured : String) : Option String :=
  (getOutputFromCmdNoChomp closeCode captured).map chomp

/-! ## Audit wrapper (`jetsam-subcmd-audit.ts`) -/

/-- The severities `yarn audit` reports, in increasing order. -/
inductive Severity
  | info
  | low
  | moderate
  | high
  | critical
deriving DecidableEq, Repr

/-- The bit assigned to each severity in the audit exit-status bit-mask,
transcribed from the `YarnAuditSeverityBits` table. -/
def YarnAuditSeverityBits : Severity → Int
  | .info => 0x01
  | .low => 0x02
  | .moderate => 0x04
  | .high => 0x08
  | .critical => 0x0f

namespace AuditDependencies

/-- The exit-status post-processing of `AuditDependencies.execute`:
`rawStatus` is the status returned by running `yarn audit`; `minimum` is
the optional `--minimum` severity.  (The severity-to-bit lookup can never
be `undefined` because the table is total, so the code's
`minStatusBit !== undefined` guard is always true.) -/
def execute (minimum : Option Severity) (rawStatus : Int) : Int :=
  match minimum with
  | none => rawStatus
  | some minSeverity =>
    if rawStatus ≠ 0 ∧ rawStatus < YarnAuditSeverityBits minSeverity then 0
    else rawStatus

end AuditDependencies

/-! ## Distribution assembler (`jetsam-subcmd-build-dist.ts`)

Only the parts the specification's claims touch are embedded:
`copyScripts` and the directory-creation behaviour of `copyConfigFiles`.
The source tree is abstracted to whether the `bin` / `config`
subdirectories exist and which *files* a recursive walk (`klaw`) yields
beneath them (the walk's directory entries are already excluded, matching
the `entry.stats.isFile()` checks in the code). -/

structure SourceTree where
  binDirExists : Bool
  /-- Paths of the files found by the recursive walk under the `bin`
  directory, as slash-separated strings. -/
  binFiles : List String
  configDirExists : Bool
  /-- Paths of the files found by the recursive walk under the `config`
  directory. -/
  configFiles : List String
deriving Repr

/-- `path.basename`: the part after the last slash. -/
def basenameChars (cs : List Char) : List Char :=
  cs.foldl (fun acc c => if c = '/' then [] else acc ++ [c]) []

/-- `/\.sh$/.test(path)` -/
def endsWithSh (cs : List Char) : Bool :=
  match cs.reverse with
  | 'h' :: 's' :: '.' :: _ => true
  | _ => false

/-- `s.replace(/\.sh$/, '')`: drop a final `.sh` when present. -/
def stripShSuffix (cs : List Char) : List Char :=
  if endsWithSh cs then cs.dropLast.dropLast.dropLast else cs

namespace BuildDistribution

/-- `BuildDistribution.copyScripts`: the basenames (extension stripped)
of the files placed under the output `bin` directory.  Every destination
is `path.join(dstDir, path.basename(file).replace(/\.sh$/, ''))`, so the
output is flat regardless of nesting in the source. -/
def copyScripts (t : SourceTree) : List String :=
  if !t.binDirExists then []
  else
    let scripts := t.binFiles.filter (fun f => endsWithSh f.data)
    if scripts.length < 1 then []
    else scripts.map (fun f => String.mk (stripShSuffix (basenameChars f.data)))

/-- Whether `copyScripts` creates the output `bin` directory: `mkdirp` is
only reached when the directory exists and at least one script matched. -/
def binDirCreated (t : SourceTree) : Bool :=
  t.binDirExists && !(t.binFiles.filter (fun f => endsWithSh f.data)).isEmpty

/-- `BuildDistribution.copyConfigFiles` returns before touching the
output when the source `config` directory does not exist; otherwise it
copies each file of the walk (`copy` creating directories as needed). -/
def configDirCreated (t : SourceTree) : Bool :=
  t.configDirExists && !t.configFiles.isEmpty

end BuildDistribution

/-! ## Release workflow (`PerformRelease.execute`)

Strings and regular expressions.  The branch pattern
`^release\/v(\d+\.\d+\.\d+)$` has escaped dots and only literal
characters around the greedy `\d+` groups, so maximal-munch digit runs
separated by literal dots are an exact implementation. -/

/-- `\d+\.\d+\.\d+` anchored on both sides, applied to a character list. -/
def isVersionChars (cs : List Char) : Bool :=
  let (d1, r1) := cs.span Char.isDigit
  match r1 with
  | '.' :: r1' =>
    let (d2, r2) := r1'.span Char.isDigit
    match r2 with
    | '.' :: r2' =>
      let (d3, r3) := r2'.span Char.isDigit
      !d1.isEmpty && !d2.isEmpty && !d3.isEmpty && r3.isEmpty
    | _ => false
  | _ => false

/-- `/^release\/v(\d+\.\d+\.\d+)$/.exec(branch)`: `some` of the captured
version number on a match, `none` otherwise. -/
def releaseBranchVersion (branch : String) : Option String :=
  match branch.data with
  | 'r' :: 'e' :: 'l' :: 'e' :: 'a' :: 's' :: 'e' :: '/' :: 'v' :: rest =>
    if isVersionChars rest then some (String.mk rest) else none
  | _ => none

/-- The ECMAScript *LineTerminator* set: `\n`, `\r`, U+2028 and U+2029.
Multiline `^`/`$` anchor immediately after/before any of these, and the
un-flagged `.` wildcard refuses exactly these. -/
def isLineTerminator (c : Char) : Bool :=
  c = '\n' || c = '\r' || c = '\u2028' || c = '\u2029'

/-- Split a character list at every LineTerminator character — the line
structure JavaScript multiline `^`/`$` anchors see.  Each terminator is
a boundary of its own, so a CRLF pair also yields an empty segment
between `\r` and `\n`, and a trailing terminator an empty final segment,
exactly where `^`/`$` both match in JS.  Since the heading pattern's
characters (hashes, spaces, literals, and a dot that refuses
terminators) can never match a terminator, `test` succeeds iff some
segment matches the pattern in full. -/
def splitLines : List Char → List (List Char)
  | [] => [[]]
  | c :: rest =>
    if isLineTerminator c then [] :: splitLines rest
    else
      match splitLines rest with
      | l :: ls => (c :: l) :: ls
      | [] => [[c]]

/-- Matching of the *interpolated* version number inside the changelog
heading regex `^#+ +<versionNum>$`.  The version number is spliced into
the regex verbatim, so its digits are literals but each `.` is the
regex wildcard, matching any character except a LineTerminator. -/
def versionCharsMatch : List Char → List Char → Bool
  | [], [] => true
  | p :: ps, c :: cs =>
    (if p = '.' then !isLineTerminator c else p = c) && versionCharsMatch ps cs
  | _, _ => false

/-- One line against `^#+ +<versionNum>$`.  For the version numbers the
workflow produces (leading digit, digits and dots only) the greedy `#+`
and ` +` runs are forced maximal, so taking maximal runs is exact. -/
def isHeadingLine (versionNum : List Char) (line : List Char) : Bool :=
  let (hashes, r1) := line.span (fun c => c = '#')
  let (spaces, r2) := r1.span (fun c => c = ' ')
  !hashes.isEmpty && !spaces.isEmpty && versionCharsMatch versionNum r2

/-- `new RegExp('^#+ +' + versionNum + '$', 'gm').test(changelog)` -/
def changelogHasEntry (changelog versionNum : String) : Bool :=
  (splitLines changelog.data).any (isHeadingLine versionNum.data)

/-- `modifiedFiles.replace(/^/gm, '  - ')`: insert the marker at the
start of the text and after every LineTerminator character, the
positions where multiline `^` matches. -/
def insertAfterTerminators : List Char → List Char
  | [] => []
  | c :: rest =>
    if isLineTerminator c then c :: ("  - ".data ++ insertAfterTerminators rest)
    else c :: insertAfterTerminators rest

def prefixLines (s : String) : String :=
  String.mk ("  - ".data ++ insertAfterTerminators s.data)

/-- An external command spawned by the workflow: executable name and
argument list. -/
structure Cmd where
  name : String
  args : List String
deriving DecidableEq, Repr

/-- The git sub-commands the specification classifies as mutating, plus
`yarn version` (the manifest version bump). -/
def mutatingGitSubcommands : List String :=
  ["pull", "checkout", "merge", "push", "tag", "commit"]

def isMutating (c : Cmd) : Bool :=
  match c.args.head? with
  | none => false
  | some sub =>
    (c.name == "git" && mutatingGitSubcommands.contains sub) ||
    (c.name == "yarn" && sub == "version")

/-- The environment a run of `PerformRelease.execute` interacts with: the
result of each external-command invocation, prompt and file read, listed
in program order.  Exit statuses are `Int` (`-1` models a failed spawn);
`Option String` outputs model `string | undefined`. -/
structure ReleaseEnv where
  /-- `git branch --show-current` captured output. -/
  branchOutput : Option String
  /-- `git rev-parse --verify --quiet <version>` exit status. -/
  revParseStatus : Int
  /-- `git diff-index --name-only --ignore-submodules HEAD --` output. -/
  diffIndexOutput : Option String
  /-- `git rev-list HEAD...origin/<branch> --ignore-submodules --count` output. -/
  revListOutput : Option String
  /-- Answer to `Do you wish to release version ...`. -/
  confirmVersion : Bool
  /-- `git pull --rebase` on the release branch, exit status. -/
  pullReleaseStatus : Int
  /-- `JSON.parse(readFile('package.json'))`: `none` when reading or
  parsing throws; otherwise the manifest's `version` field (`none` when
  the field is absent). -/
  manifestVersion : Option (Option String)
  /-- `readFile('CHANGELOG.md')`: `none` when the read throws. -/
  changelog : Option String
  /-- First `yarn pre-commit` exit status. -/
  preCommitStatus : Int
  /-- `git checkout master` exit status. -/
  checkoutMasterStatus : Int
  /-- `git pull --rebase` on master, exit status. -/
  pullMasterStatus : Int
  /-- `git merge --no-ff --no-edit <branch>` exit status. -/
  mergeStatus : Int
  /-- `yarn pre-commit` on master after the merge, exit status. -/
  preCommitMasterStatus : Int
  /-- Answer to `Pushing release ... continue`. -/
  confirmPush : Bool
  /-- `git push` exit status. -/
  pushStatus : Int
  /-- Answer to `Tagging release ... continue`. -/
  confirmTagging : Bool
  /-- `git tag <version>` exit status. -/
  tagStatus : Int
  /-- `git push origin <version>` exit status. -/
  pushTagStatus : Int
  /-- The answer `getInput` accepted for the next-release-type prompt
  (choices `major`/`minor`/`patch`/`none`, default `minor`). -/
  nextReleaseType : String
  /-- `semver -i <type> <versionNum>` captured output. -/
  semverOutput : Option String
  /-- `git show-branch <newBranch>` exit status. -/
  showBranchLocalStatus : Int
  /-- `git show-branch remotes/origin/<newBranch>` exit status. -/
  showBranchRemoteStatus : Int
  /-- `git checkout -b <newBranch>` exit status. -/
  checkoutNewBranchStatus : Int
  /-- `yarn version --no-git-tag-version ... <nextVersionNum>` exit status. -/
  yarnVersionStatus : Int
  /-- `git commit package.json -m ...` exit status. -/
  commitStatus : Int
  /-- Answer to `Pushing new branch ... continue`. -/
  confirmPushBranch : Bool
  /-- `git push --set-upstream origin <newBranch>` exit status. -/
  pushBranchStatus : Int

/-- What a run produced: the returned exit status, the trace of spawned
external commands, and the `console.error` diagnostics (standard-output
narration and the thrown exceptions' texts are not modelled). -/
structure RunResult where
  status : Int
  cmds : List Cmd
  errs : List String
deriving DecidableEq, Repr

namespace PerformRelease

/-- How the mismatch diagnostic renders `manifest.version`: an absent
field prints as `undefined`. -/
def showManifestVersion : Option String → String
  | none => "undefined"
  | some s => s

/-- Lines 252–335 of `PerformRelease.execute`: the next-release-branch
provisioning, entered after the merge/tag phase (or directly after the
pre-commit check in dry-run mode). -/
def nextRelease (dryRun : Bool) (env : ReleaseEnv) (versionNum : String)
    (t : List Cmd) : RunResult :=
  if env.nextReleaseType == "none" then ⟨0, t, []⟩
  else
    let t := t ++ [⟨"semver", ["-i", env.nextReleaseType, versionNum]⟩]
    match env.semverOutput with
    | none => ⟨1, t, ["Error: Failed to calculate the next releases number"]⟩
    | some nextVersionNum =>
      let nextVersion := "v" ++ nextVersionNum
      let newBranch := "release/" ++ nextVersion
      let t := t ++ [⟨"git", ["show-branch", newBranch]⟩]
      if env.showBranchLocalStatus = 0 then
        ⟨1, t, ["Error: A branch for release \"" ++ nextVersion ++ "\" already exists locally"]⟩
      else
        let t := t ++ [⟨"git", ["show-branch", "remotes/origin/" ++ newBranch]⟩]
        if env.showBranchRemoteStatus = 0 then
          ⟨1, t, ["Error: A branch for release \"" ++ nextVersion ++ "\" already exists on the origin"]⟩
        else if dryRun then ⟨0, t, []⟩
        else
          let t := t ++ [⟨"git", ["checkout", "-b", newBranch]⟩]
          if env.checkoutNewBranchStatus ≠ 0 then
            ⟨env.checkoutNewBranchStatus, t, ["Error: Failed to create release branch " ++ newBranch]⟩
          else
            let t := t ++
              [⟨"yarn", ["version", "--no-git-tag-version", "--no-commit-hooks",
                "--new-version", nextVersionNum]⟩]
            if env.yarnVersionStatus ≠ 0 then
              ⟨env.yarnVersionStatus, t, ["Error: Failed to update package version to " ++ nextVersionNum]⟩
            else
              let t := t ++ [⟨"git", ["commit", "package.json", "-m", "Bump version to " ++ nextVersionNum]⟩]
              if env.commitStatus ≠ 0 then
                ⟨env.commitStatus, t, ["Error: Failed to commit version bump to package.json"]⟩
              else if ¬env.confirmPushBranch then ⟨1, t, []⟩
              else
                let t := t ++ [⟨"git", ["push", "--set-upstream", "origin", newBranch]⟩]
                if env.pushBranchStatus ≠ 0 then
                  ⟨env.pushBranchStatus, t, ["Error: Failed to push branch " ++ newBranch ++ " to origin"]⟩
                else ⟨0, t, []⟩

/-- Lines 182–250: the merge/push/tag phase, skipped whole in dry-run
mode.  (The push-failure diagnostic repeats the pre-commit text; that is
what the source prints.) -/
def mergeAndTag (dryRun : Bool) (env : ReleaseEnv) (branch versionNum version : String)
    (t : List Cmd) : RunResult :=
  if dryRun then nextRelease dryRun env versionNum t
  else
    let t := t ++ [⟨"git", ["checkout", "master"]⟩]
    if env.checkoutMasterStatus ≠ 0 then
      ⟨env.checkoutMasterStatus, t, ["Error: Failed to change branch to master"]⟩
    else
      let t := t ++ [⟨"git", ["pull", "--rebase"]⟩]
      if env.pullMasterStatus ≠ 0 then
        ⟨env.pullMasterStatus, t, ["Error: Failed to pull latest changes to master from origin"]⟩
      else
        let t := t ++ [⟨"git", ["merge", "--no-ff", "--no-edit", branch]⟩]
        if env.mergeStatus ≠ 0 then
          ⟨env.mergeStatus, t, ["Error: Failed to merge " ++ branch ++ " into master"]⟩
        else
          let t := t ++ [⟨"yarn", ["pre-commit"]⟩]
          if env.preCommitMasterStatus ≠ 0 then
            ⟨env.preCommitMasterStatus, t,
              ["Error: Pre-commit checks failed on master after merge",
               "Error: Issue \"git reset --hard origin/master\" to undo merge"]⟩
          else if ¬env.confirmPush then ⟨1, t, []⟩
          else
            let t := t ++ [⟨"git", ["push"]⟩]
            if env.pushStatus ≠ 0 then
              ⟨env.pushStatus, t,
                ["Error: Pre-commit checks failed on master after merge",
                 "Error: Issue \"git reset --hard origin/master\" to undo merge"]⟩
            else if ¬env.confirmTagging then ⟨1, t, []⟩
            else
              let t := t ++ [⟨"git", ["tag", version]⟩]
              if env.tagStatus ≠ 0 then
                ⟨env.tagStatus, t, ["Error: Failed to create local tag \"" ++ version ++ "\""]⟩
              else
                let t := t ++ [⟨"git", ["push", "origin", version]⟩]
                if env.pushTagStatus ≠ 0 then
                  ⟨env.pushTagStatus, t, ["Error: Failed to push local tag \"" ++ version ++ "\" to origin"]⟩
                else nextRelease dryRun env versionNum t

/-- Lines 174–180: the first `yarn pre-commit` gate, then on to the
merge phase. -/
def preCommitAndOn (dryRun : Bool) (env : ReleaseEnv) (branch versionNum version : String)
    (t : List Cmd) : RunResult :=
  let t := t ++ [⟨"yarn", ["pre-commit"]⟩]
  if env.preCommitStatus ≠ 0 then
    ⟨env.preCommitStatus, t, ["Error: Pre-commit checks failed on " ++ branch]⟩
  else mergeAndTag dryRun env branch versionNum version t

/-- Lines 142–172: the manifest/version cross-check and the changelog
cross-check.  The exception texts appended to the two read-failure
diagnostics are not modelled.  The missing-entry diagnostic really does
contain the literal text `$versionNum`: the source's template literal
lacks the braces of an interpolation there. -/
def checksAfterPull (dryRun ignoreChangelog : Bool) (env : ReleaseEnv)
    (branch versionNum version : String) (t : List Cmd) : RunResult :=
  match env.manifestVersion with
  | none => ⟨1, t, ["Error: Failed to read package.json"]⟩
  | some manifestVersion =>
    if manifestVersion ≠ some versionNum then
      ⟨1, t,
        ["Error: Version in package.json does not match that being released: " ++
          showManifestVersion manifestVersion ++ " != " ++ versionNum]⟩
    else if ignoreChangelog then preCommitAndOn dryRun env branch versionNum version t
    else
      match env.changelog with
      | none => ⟨1, t, ["Error: Failed to read CHANGELOG"]⟩
      | some changelog =>
        if ¬changelogHasEntry changelog versionNum then
          ⟨1, t, ["Error: CHANGELOG does not contain an entry for version $versionNum"]⟩
        else preCommitAndOn dryRun env branch versionNum version t

/-- `PerformRelease.execute` (lines 57–140 directly, the rest through
the phase functions above).  Declining a confirmation returns 1 with no
error-stream diagnostic (the abort notice goes to standard output). -/
def execute (dryRun ignoreChangelog : Bool) (env : ReleaseEnv) : RunResult :=
  let t : List Cmd := [⟨"git", ["branch", "--show-current"]⟩]
  match env.branchOutput with
  | none => ⟨1, t, ["Error: Failed to get the git branch name"]⟩
  | some branch =>
    match releaseBranchVersion branch with
    | none =>
      ⟨1, t, ["Error: Branch \"" ++ branch ++ "\" does not conform to the naming convention \"release/vX.Y.Z\""]⟩
    | some versionNum =>
      let version := "v" ++ versionNum
      let t := t ++ [⟨"git", ["rev-parse", "--verify", "--quiet", version]⟩]
      if env.revParseStatus = 0 then
        ⟨1, t, ["Error: The release tag \"" ++ version ++ "\" already exists"]⟩
      else
        let t := t ++ [⟨"git", ["diff-index", "--name-only", "--ignore-submodules", "HEAD", "--"]⟩]
        match env.diffIndexOutput with
        | none => ⟨1, t, ["Error: Failed to determine if the checkout is clean"]⟩
        | some modifiedFiles =>
          if modifiedFiles ≠ "" then
            ⟨1, t,
              ["Error: The checkout is not clean with at least one modified file:\n" ++
                prefixLines modifiedFiles ++ "\n"]⟩
          else
            let t := t ++
              [⟨"git", ["rev-list", "HEAD...origin/" ++ branch, "--ignore-submodules", "--count"]⟩]
            match env.revListOutput with
            | none => ⟨1, t, ["Error: Failed to determine if the local checkout is ahead of the origin"]⟩
            | some numCommitsAhead =>
              if numCommitsAhead ≠ "0" then
                ⟨1, t, ["Error: The local branch is " ++ numCommitsAhead ++ " commits ahead of the origin"]⟩
              else if ¬env.confirmVersion then ⟨1, t, []⟩
              else if dryRun then checksAfterPull dryRun ignoreChangelog env branch versionNum version t
              else
                let t := t ++ [⟨"git", ["pull", "--rebase"]⟩]
                if env.pullReleaseStatus ≠ 0 then
                  ⟨env.pullReleaseStatus, t, ["Error: Failed to update the local branch from the origin"]⟩
                else checksAfterPull dryRun ignoreChangelog env branch versionNum version t

end PerformRelease

/-- Stated from the specification's words, for comparison with the code's
`isHeadingLine`: a changelog heading whose text after the hashes and
spaces is *exactly* the version number. -/
def isExactHeadingLine (versionNum : List Char) (line : List Char) : Bool :=
  let (hashes, r1) := line.span (fun c => c = '#')
  let (spaces, r2) := r1.span (fun c => c = ' ')
  !hashes.isEmpty && !spaces.isEmpty && r2 == versionNum

/-- A release-environment in which every check passes: release branch
`release/v1.2.3`, no existing tag, clean checkout, in sync with origin,
matching manifest and changelog, passing pre-commit, every prompt
answered affirmatively, next release `minor` with no existing branch. -/
def validEnv : ReleaseEnv where
  branchOutput := some "release/v1.2.3"
  revParseStatus := 1
  diffIndexOutput := some ""
  revListOutput := some "0"
  confirmVersion := true
  pullReleaseStatus := 0
  manifestVersion := some (some "1.2.3")
  changelog := some "# 1.2.3\n"
  preCommitStatus := 0
  checkoutMasterStatus := 0
  pullMasterStatus := 0
  mergeStatus := 0
  preCommitMasterStatus := 0
  confirmPush := true
  pushStatus := 0
  confirmTagging := true
  tagStatus := 0
  pushTagStatus := 0
  nextReleaseType := "minor"
  semverOutput := some "1.3.0"
  showBranchLocalStatus := 1
  showBranchRemoteStatus := 1
  checkoutNewBranchStatus := 0
  yarnVersionStatus := 0
  commitStatus := 0
  confirmPushBranch := true
  pushBranchStatus := 0

end Jetsam

open Jetsam

/-- C2: with a minimum severity supplied and a non-zero raw audit status,
the returned status is 0 exactly when the raw status is strictly below
the severity's bit value, and is the raw status unchanged otherwise;
with no minimum severity, or a raw status of 0, the raw status is
returned unchanged. -/
theorem audit_minimum_severity_mapping (m : Severity) (raw : Int) :
    (raw ≠ 0 →
      ((AuditDependencies.execute (some m) raw = 0 ↔ raw < YarnAuditSeverityBits m) ∧
       (¬ raw < YarnAuditSeverityBits m → AuditDependencies.execute (some m) raw = raw))) ∧
    AuditDependencies.execute none raw = raw ∧
    AuditDependencies.execute (some m) 0 = 0 := by
  refine ⟨fun h => ?_, rfl, by simp [AuditDependencies.execute]⟩
  unfold AuditDependencies.execute
  by_cases hlt : raw < YarnAuditSeverityBits m <;> simp [h, hlt]

theorem audit_minimum_severity_mapping_witness :
    AuditDependencies.execute (some .high) 4 = 0 ∧
    AuditDependencies.execute (some .high) 9 = 9 :=
  ⟨((audit_minimum_severity_mapping .high 4).1 (by decide)).1.mpr (by decide),
   ((audit_minimum_severity_mapping .high 9).1 (by decide)).2 (by decide)⟩

/-- C5 counterexample: the claim that `high` and `critical` share the
bit value `0x0f` is false — `high` is mapped to `0x08`, which differs
from `critical`'s `0x0f`. -/
theorem high_and_critical_bits_differ :
    YarnAuditSeverityBits .high = 0x08 ∧
    YarnAuditSeverityBits .critical = 0x0f ∧
    YarnAuditSeverityBits .high ≠ YarnAuditSeverityBits .critical := by
  decide

/-- C5 amended: the severity-to-bit table assigns strictly increasing
values in severity order — single bits 1, 2, 4, 8 for the first four
severities — while `critical` alone is mapped to `0x0f`, the mask of all
four lower bits, rather than a distinct higher bit. -/
theorem severity_bits_increasing_with_critical_mask :
    YarnAuditSeverityBits .info = 0x01 ∧
    YarnAuditSeverityBits .low = 0x02 ∧
    YarnAuditSeverityBits .moderate = 0x04 ∧
    YarnAuditSeverityBits .high = 0x08 ∧
    YarnAuditSeverityBits .critical = 0x0f ∧
    YarnAuditSeverityBits .info < YarnAuditSeverityBits .low ∧
    YarnAuditSeverityBits .low < YarnAuditSeverityBits .moderate ∧
    YarnAuditSeverityBits .moderate < YarnAuditSeverityBits .high ∧
    YarnAuditSeverityBits .high < YarnAuditSeverityBits .critical := by
  decide

/-- C9: the output-capturing runners resolve to `undefined` whenever the
child closes with a non-zero code, discarding any captured text; the
text is returned only on close code 0, with `getOutputFromCmd` removing
exactly one trailing newline when one is present. -/
theorem output_runners_discard_on_nonzero_exit (code : Int) (out : String) :
    (code ≠ 0 →
       getOutputFromCmdNoChomp code out = none ∧ getOutputFromCmd code out = none) ∧
    (code = 0 →
       getOutputFromCmdNoChomp code out = some out ∧
       getOutputFromCmd code out = some (chomp out)) ∧
    (out.data.getLast? = some '\n' → (chomp out).data = out.data.dropLast) ∧
    (out.data.getLast? ≠ some '\n' → chomp out = out) := by
  refine ⟨fun h => ?_, fun h => ?_, fun h => ?_, fun h => ?_⟩
  · simp [getOutputFromCmdNoChomp, getOutputFromCmd, h]
  · simp [getOutputFromCmdNoChomp, getOutputFromCmd, h]
  · simp [chomp, h]
  · simp [chomp, h]

theorem output_runners_discard_on_nonzero_exit_witness :
    (getOutputFromCmdNoChomp 2 "captured\n" = none ∧
     getOutputFromCmd 2 "captured\n" = none) ∧
    (getOutputFromCmdNoChomp 0 "captured\n" = some "captured\n" ∧
     getOutputFromCmd 0 "captured\n" = some (chomp "captured\n")) :=
  ⟨(output_runners_discard_on_nonzero_exit 2 "captured\n").1 (by decide),
   (output_runners_discard_on_nonzero_exit 0 "captured\n").2.1 rfl⟩

/-- C8: `getInput` returns the default on an empty input whenever a
default exists; with a non-empty choice list (and no default) it returns
the first console input that is a member of the list, re-prompting past
every other input; with no choice list the first input is returned
as-is; and `confirm` is `getInput` on the fixed choices
`['yes', 'no']`, answering `true` exactly on the answer `'yes'`. -/
theorem getInput_and_confirm_contract :
    (∀ (choices : Option (List String)) (d : String) (rest : List String),
        getInput choices (some d) ("" :: rest) = some d) ∧
    (∀ (cs : List String) (inputs : List String), cs ≠ [] →
        getInput (some cs) none inputs = inputs.find? (fun a => cs.contains a)) ∧
    (∀ (d : Option String) (a : String) (rest : List String), a ≠ "" →
        getInput none d (a :: rest) = some a) ∧
    (∀ (a : String) (rest : List String), getInput none none (a :: rest) = some a) ∧
    (∀ (d : Option Bool) (inputs : List String),
        confirm d inputs =
          (getInput (some ["yes", "no"])
              (match d with
                | some true => some "yes"
                | some false => some "no"
                | none => none) inputs).map (fun answer => answer == "yes")) ∧
    (∀ inputs : List String,
        confirm none inputs = some true ↔
          getInput (some ["yes", "no"]) none inputs = some "yes") := by
  refine ⟨fun choices d rest => by simp [getInput], fun cs inputs h => ?_,
    fun d a rest ha => by simp [getInput, ha], fun a rest => by simp [getInput],
    fun d inputs => rfl, fun inputs => ?_⟩
  · obtain ⟨c, cs', rfl⟩ : ∃ c cs', cs = c :: cs' := by
      cases cs with
      | nil => exact absurd rfl h
      | cons c cs' => exact ⟨c, cs', rfl⟩
    induction inputs with
    | nil => simp [getInput]
    | cons a rest ih =>
      by_cases hca : a = c ∨ a ∈ cs'
      · rw [List.find?_cons_of_pos _ (by simpa using hca)]
        simp only [getInput]
        simp [hca]
      · rw [List.find?_cons_of_neg _ (by simpa using hca), ← ih]
        simp only [getInput]
        simp [hca]
  · cases hg : getInput (some ["yes", "no"]) none inputs with
    | none => simp [confirm, hg]
    | some a => simp [confirm, hg]

theorem getInput_and_confirm_contract_witness :
    getInput (some ["yes", "no"]) (some "yes") ("" :: []) = some "yes" ∧
    getInput (some ["yes", "no"]) none ["maybe", "no"] = some "no" ∧
    getInput none none ["anything"] = some "anything" ∧
    (confirm none ["yes"] = some true ↔
      getInput (some ["yes", "no"]) none ["yes"] = some "yes") :=
  ⟨getInput_and_confirm_contract.1 (some ["yes", "no"]) "yes" [],
   by rw [getInput_and_confirm_contract.2.1 ["yes", "no"] ["maybe", "no"] (by decide)]; decide,
   getInput_and_confirm_contract.2.2.2.1 "anything" [],
   getInput_and_confirm_contract.2.2.2.2.2 ["yes"]⟩

/-- C10: when a non-empty choice list and a default are both supplied,
an empty console input makes `getInput` return the default immediately,
with no membership check against the choice list — so a default outside
the list escapes validation. -/
theorem empty_input_default_skips_validation
    (cs : List String) (d : String) (rest : List String) (_h : cs ≠ []) :
    getInput (some cs) (some d) ("" :: rest) = some d := by
  simp [getInput]

theorem empty_input_default_skips_validation_witness :
    getInput (some ["yes", "no"]) (some "maybe") [""] = some "maybe" ∧
    ("maybe" ∈ ["yes", "no"]) = False :=
  ⟨empty_input_default_skips_validation ["yes", "no"] "maybe" [] (by decide),
   by decide⟩

/-- With an existing `bin` directory, `copyScripts` is the stripped-name
map over the `.sh` filter, whether or not the guard on an empty script
list fires. -/
theorem copyScripts_eq_map_of_bin (t : SourceTree) (hbin : t.binDirExists = true) :
    BuildDistribution.copyScripts t =
      (t.binFiles.filter (fun f => endsWithSh f.data)).map
        (fun f => String.mk (stripShSuffix (basenameChars f.data))) := by
  unfold BuildDistribution.copyScripts
  rw [hbin]
  by_cases hf : t.binFiles.filter (fun f => endsWithSh f.data) = []
  · simp [hf]
  · have hlen : ¬ (t.binFiles.filter (fun f => endsWithSh f.data)).length < 1 := by
      simpa [Nat.lt_one_iff, List.length_eq_zero] using hf
    simp [hlen]

/-- C7: with an existing source `bin` directory, the files placed under
the output `bin` directory are exactly the `.sh` files of the recursive
walk, each under its basename with the extension stripped; with no `bin`
directory or no `.sh` files, nothing is copied and the output `bin`
directory is not created; with no source `config` directory, no output
`config` directory is created. -/
theorem copyScripts_characterization (t : SourceTree) :
    (t.binDirExists = true →
       ∀ y, y ∈ BuildDistribution.copyScripts t ↔
         ∃ f, f ∈ t.binFiles ∧ endsWithSh f.data = true ∧
           y = String.mk (stripShSuffix (basenameChars f.data))) ∧
    (t.binDirExists = false →
       BuildDistribution.copyScripts t = [] ∧ BuildDistribution.binDirCreated t = false) ∧
    (t.binFiles.filter (fun f => endsWithSh f.data) = [] →
       BuildDistribution.copyScripts t = [] ∧ BuildDistribution.binDirCreated t = false) ∧
    (t.configDirExists = false → BuildDistribution.configDirCreated t = false) := by
  refine ⟨fun hbin y => ?_, fun hbin => ?_, fun hf => ?_, fun hc => ?_⟩
  · rw [copyScripts_eq_map_of_bin t hbin]
    simp only [List.mem_map, List.mem_filter]
    constructor
    · rintro ⟨f, ⟨hmem, hsh⟩, rfl⟩
      exact ⟨f, hmem, by simpa using hsh, rfl⟩
    · rintro ⟨f, hmem, hsh, rfl⟩
      exact ⟨f, ⟨hmem, by simpa using hsh⟩, rfl⟩
  · simp [BuildDistribution.copyScripts, BuildDistribution.binDirCreated, hbin]
  · simp [BuildDistribution.copyScripts, BuildDistribution.binDirCreated, hf]
  · simp [BuildDistribution.configDirCreated, hc]

theorem copyScripts_characterization_witness :
    ("start" ∈ BuildDistribution.copyScripts ⟨true, ["bin/start.sh"], false, []⟩) ∧
    (¬ "stop" ∈ BuildDistribution.copyScripts ⟨true, ["bin/start.sh"], false, []⟩) ∧
    BuildDistribution.configDirCreated ⟨true, ["bin/start.sh"], false, []⟩ = false :=
  ⟨((copyScripts_characterization ⟨true, ["bin/start.sh"], false, []⟩).1 rfl "start").mpr
      ⟨"bin/start.sh", by decide, by decide, by decide⟩,
   fun hmem => by
      obtain ⟨f, hf, -, hy⟩ :=
        ((copyScripts_characterization ⟨true, ["bin/start.sh"], false, []⟩).1 rfl "stop").mp hmem
      rw [show f = "bin/start.sh" by simpa using hf] at hy
      exact absurd hy (by decide),
   (copyScripts_characterization ⟨true, ["bin/start.sh"], false, []⟩).2.2.2 rfl⟩

/-- C3: whenever the current branch name cannot be determined or does
not match `^release\/v(\d+\.\d+\.\d+)$`, the release workflow returns
exit status 1 straight from the branch-validation step, having spawned
only the read-only `git branch --show-current`; no mutating command is
in the trace. -/
theorem invalid_branch_aborts_at_step_one (dryRun ignoreChangelog : Bool)
    (env : ReleaseEnv)
    (h : env.branchOutput = none ∨
      ∃ b, env.branchOutput = some b ∧ releaseBranchVersion b = none) :
    (PerformRelease.execute dryRun ignoreChangelog env).status = 1 ∧
    (PerformRelease.execute dryRun ignoreChangelog env).cmds =
      [⟨"git", ["branch", "--show-current"]⟩] ∧
    ∀ c ∈ (PerformRelease.execute dryRun ignoreChangelog env).cmds,
      isMutating c = false := by
  rcases h with hb | ⟨b, hb, hv⟩
  · simp [PerformRelease.execute, hb, isMutating, mutatingGitSubcommands]
  · simp [PerformRelease.execute, hb, hv, isMutating, mutatingGitSubcommands]

theorem invalid_branch_aborts_at_step_one_witness :
    (PerformRelease.execute false false { validEnv with branchOutput := some "main" }).status = 1 ∧
    (PerformRelease.execute false false { validEnv with branchOutput := some "main" }).cmds =
      [⟨"git", ["branch", "--show-current"]⟩] ∧
    ∀ c ∈ (PerformRelease.execute false false { validEnv with branchOutput := some "main" }).cmds,
      isMutating c = false :=
  invalid_branch_aborts_at_step_one false false _
    (Or.inr ⟨"main", rfl, by decide⟩)

/-- C1: in dry-run mode, from a fully valid
branch/checkout/manifest/changelog state with every confirmation
answered affirmatively, the workflow returns exit status 0 and spawns no
mutating git/package-manager command — no pull, checkout, merge, push,
tag, commit or version bump appears in the trace. -/
theorem dry_run_returns_zero_without_mutation
    (ignoreChangelog : Bool) (env : ReleaseEnv)
    (branch versionNum changelogText nextVersionNum : String)
    (hb : env.branchOutput = some branch)
    (hv : releaseBranchVersion branch = some versionNum)
    (hrp : env.revParseStatus ≠ 0)
    (hdi : env.diffIndexOutput = some "")
    (hrl : env.revListOutput = some "0")
    (hcv : env.confirmVersion = true)
    (hm : env.manifestVersion = some (some versionNum))
    (hcl : env.changelog = some changelogText)
    (hce : changelogHasEntry changelogText versionNum = true)
    (hpc : env.preCommitStatus = 0)
    (hsv : env.semverOutput = some nextVersionNum)
    (hsl : env.showBranchLocalStatus ≠ 0)
    (hsr : env.showBranchRemoteStatus ≠ 0) :
    (PerformRelease.execute true ignoreChangelog env).status = 0 ∧
    ∀ c ∈ (PerformRelease.execute true ignoreChangelog env).cmds,
      isMutating c = false := by
  by_cases hnr : env.nextReleaseType = "none" <;>
  cases ignoreChangelog <;>
    simp [PerformRelease.execute, PerformRelease.checksAfterPull,
      PerformRelease.preCommitAndOn, PerformRelease.mergeAndTag,
      PerformRelease.nextRelease, isMutating, mutatingGitSubcommands,
      hb, hv, hrp, hdi, hrl, hcv, hm, hcl, hce, hpc, hsv, hsl, hsr, hnr]

theorem dry_run_returns_zero_without_mutation_witness :
    (PerformRelease.execute true false validEnv).status = 0 ∧
    ∀ c ∈ (PerformRelease.execute true false validEnv).cmds,
      isMutating c = false :=
  dry_run_returns_zero_without_mutation false validEnv
    "release/v1.2.3" "1.2.3" "# 1.2.3\n" "1.3.0"
    rfl (by decide) (by decide) rfl rfl rfl rfl rfl (by decide) rfl rfl
    (by decide) (by decide)

/-- C4 counterexample: in a non-dry-run with an otherwise valid state,
the fast-forward pull of the release branch (step 6) runs *before* the
manifest/version cross-check (step 7), so a run that aborts on the
version mismatch has already performed the mutating
`git pull --rebase`. -/
theorem version_mismatch_pull_precedes_abort :
    (PerformRelease.execute false false
        { validEnv with manifestVersion := some (some "1.2.2") }).status = 1 ∧
    (PerformRelease.execute false false
        { validEnv with manifestVersion := some (some "1.2.2") }).errs =
      ["Error: Version in package.json does not match that being released: 1.2.2 != 1.2.3"] ∧
    (⟨"git", ["pull", "--rebase"]⟩ : Cmd) ∈
      (PerformRelease.execute false false
        { validEnv with manifestVersion := some (some "1.2.2") }).cmds ∧
    isMutating ⟨"git", ["pull", "--rebase"]⟩ = true := by
  decide

/-- C4 amended: whenever the manifest's version differs from the
branch-derived version (all earlier gates passing), the workflow aborts
with the version-mismatch diagnostic and exit status 1; the only
mutating command that can precede the abort is the rebase-pull of the
release branch, and in dry-run mode no mutating command precedes it at
all. -/
theorem version_mismatch_aborts_after_pull_only
    (dryRun ignoreChangelog : Bool) (env : ReleaseEnv)
    (branch versionNum : String) (manifestVersion : Option String)
    (hb : env.branchOutput = some branch)
    (hv : releaseBranchVersion branch = some versionNum)
    (hrp : env.revParseStatus ≠ 0)
    (hdi : env.diffIndexOutput = some "")
    (hrl : env.revListOutput = some "0")
    (hcv : env.confirmVersion = true)
    (hpull : env.pullReleaseStatus = 0)
    (hm : env.manifestVersion = some manifestVersion)
    (hne : manifestVersion ≠ some versionNum) :
    (PerformRelease.execute dryRun ignoreChangelog env).status = 1 ∧
    (PerformRelease.execute dryRun ignoreChangelog env).errs =
      ["Error: Version in package.json does not match that being released: " ++
        PerformRelease.showManifestVersion manifestVersion ++ " != " ++ versionNum] ∧
    (∀ c ∈ (PerformRelease.execute dryRun ignoreChangelog env).cmds,
       isMutating c = true → c = ⟨"git", ["pull", "--rebase"]⟩) ∧
    (dryRun = true →
       ∀ c ∈ (PerformRelease.execute dryRun ignoreChangelog env).cmds,
         isMutating c = false) := by
  cases dryRun <;>
    simp [PerformRelease.execute, PerformRelease.checksAfterPull, isMutating,
      mutatingGitSubcommands, hb, hv, hrp, hdi, hrl, hcv, hpull, hm, hne]

theorem version_mismatch_aborts_after_pull_only_witness :
    (PerformRelease.execute true false
        { validEnv with manifestVersion := some (some "1.2.2") }).status = 1 ∧
    (PerformRelease.execute true false
        { validEnv with manifestVersion := some (some "1.2.2") }).errs =
      ["Error: Version in package.json does not match that being released: " ++
        PerformRelease.showManifestVersion (some "1.2.2") ++ " != " ++ "1.2.3"] ∧
    (∀ c ∈ (PerformRelease.execute true false
        { validEnv with manifestVersion := some (some "1.2.2") }).cmds,
       isMutating c = true → c = ⟨"git", ["pull", "--rebase"]⟩) ∧
    (true = true →
       ∀ c ∈ (PerformRelease.execute true false
          { validEnv with manifestVersion := some (some "1.2.2") }).cmds,
         isMutating c = false) :=
  version_mismatch_aborts_after_pull_only true false
    { validEnv with manifestVersion := some (some "1.2.2") }
    "release/v1.2.3" "1.2.3" (some "1.2.2")
    rfl (by decide) (by decide) rfl rfl rfl rfl rfl (by decide)

/-- C6 counterexample: the released version number is spliced verbatim
into the heading regex, where its dots are wildcards.  With version
`1.2.3` and a changelog whose only line is `## 1a2b3`, no heading is
exactly the version number, yet the check passes and an otherwise valid
dry-run completes with exit status 0 — refuting "fails exactly when no
heading exactly matches the version number". -/
theorem changelog_wildcard_heading_accepted :
    ((splitLines ("## 1a2b3").data).all
        (fun l => !isExactHeadingLine ("1.2.3").data l)) = true ∧
    changelogHasEntry "## 1a2b3" "1.2.3" = true ∧
    (PerformRelease.execute true false
        { validEnv with changelog := some "## 1a2b3", nextReleaseType := "none" }).status = 0 := by
  decide

/-- C6 amended: without `--ignore-changelog`, the changelog cross-check
fails (exit status 1, with its distinct diagnostic, all earlier gates
having passed) exactly when no changelog line matches the interpolated
heading regex `^#+ +<version>$`, in which each dot of the version number
matches any single non-line-terminator character; when the regex does
match, the run proceeds exactly as it would with `--ignore-changelog`;
and with `--ignore-changelog` the changelog contents never affect the
run. -/
theorem changelog_gate_iff_regex_match
    (dryRun : Bool) (env : ReleaseEnv)
    (branch versionNum changelogText : String)
    (hb : env.branchOutput = some branch)
    (hv : releaseBranchVersion branch = some versionNum)
    (hrp : env.revParseStatus ≠ 0)
    (hdi : env.diffIndexOutput = some "")
    (hrl : env.revListOutput = some "0")
    (hcv : env.confirmVersion = true)
    (hpull : env.pullReleaseStatus = 0)
    (hm : env.manifestVersion = some (some versionNum))
    (hcl : env.changelog = some changelogText) :
    (changelogHasEntry changelogText versionNum = false →
       (PerformRelease.execute dryRun false env).status = 1 ∧
       (PerformRelease.execute dryRun false env).errs =
         ["Error: CHANGELOG does not contain an entry for version $versionNum"]) ∧
    (changelogHasEntry changelogText versionNum = true →
       PerformRelease.execute dryRun false env =
         PerformRelease.execute dryRun true env) ∧
    (∀ c₁ c₂ : Option String,
       PerformRelease.execute dryRun true { env with changelog := c₁ } =
         PerformRelease.execute dryRun true { env with changelog := c₂ }) := by
  refine ⟨fun hno => ?_, fun hyes => ?_, fun c₁ c₂ => ?_⟩
  · cases dryRun <;>
      simp [PerformRelease.execute, PerformRelease.checksAfterPull,
        hb, hv, hrp, hdi, hrl, hcv, hpull, hm, hcl, hno]
  · cases dryRun <;>
      simp [PerformRelease.execute, PerformRelease.checksAfterPull,
        hb, hv, hrp, hdi, hrl, hcv, hpull, hm, hcl, hyes]
  · rfl

theorem changelog_gate_iff_regex_match_witness :
    (PerformRelease.execute true false validEnv =
       PerformRelease.execute true true validEnv) ∧
    (PerformRelease.execute true false
        { validEnv with changelog := some "# 1.2.3\r\n" } =
       PerformRelease.execute true true
        { validEnv with changelog := some "# 1.2.3\r\n" }) ∧
    (PerformRelease.execute true false
        { validEnv with changelog := some "no entry here" }).status = 1 ∧
    (PerformRelease.execute true false
        { validEnv with changelog := some "no entry here" }).errs =
      ["Error: CHANGELOG does not contain an entry for version $versionNum"] :=
  ⟨(changelog_gate_iff_regex_match true validEnv
      "release/v1.2.3" "1.2.3" "# 1.2.3\n"
      rfl (by decide) (by decide) rfl rfl rfl rfl rfl rfl).2.1 (by decide),
   (changelog_gate_iff_regex_match true
      { validEnv with changelog := some "# 1.2.3\r\n" }
      "release/v1.2.3" "1.2.3" "# 1.2.3\r\n"
      rfl (by decide) (by decide) rfl rfl rfl rfl rfl rfl).2.1 (by decide),
   (changelog_gate_iff_regex_match true
      { validEnv with changelog := some "no entry here" }
      "release/v1.2.3" "1.2.3" "no entry here"
      rfl (by decide) (by decide) rfl rfl rfl rfl rfl rfl).1 (by decide)⟩
